import Mathlib

/-!
Verification of the action-scheduling and resource-locking engine of the
spaces-design panel/shape action modules.

The development has four parts:
1. a model of the lock scheduler (resources, modes, conflict, admission,
   FCFS queueing) — the scheduling kernel itself is not among the source
   files, so it is modelled from the spec;
2. the static action-descriptor registry, transcribed from the descriptor
   objects attached to each action in the source, together with the
   effective-lock-set computation and the registration-time validation;
3. shallow embeddings of the stroke, fill and combine action bodies as
   functions from inputs (and a host model) to the ordered list of effects
   they issue, transcribed from the source;
4. a model of the debounce utility (external lodash code, modelled from
   the spec contract).
-/

/-- The fixed set of shared resources, from the js/locks identifiers used
by the source action descriptors. -/
inductive Resource
  | psApp
  | psDoc
  | jsDoc
  | jsPanel
  | jsPref
  | jsApp
deriving DecidableEq, Repr

/-- Lock mode of one resource in a grant. -/
inductive Mode
  | read
  | write
deriving DecidableEq, Repr

/-- Modelled from the spec: two resource/mode pairs conflict iff they name
the same resource and at least one is Write. -/
def pairConflict (p q : Resource × Mode) : Bool :=
  decide (p.1 = q.1) && (decide (p.2 = Mode.write) || decide (q.2 = Mode.write))

/-- Modelled from the spec: two lock sets conflict iff some pair of their
members conflicts. -/
def setsConflict (a b : List (Resource × Mode)) : Bool :=
  a.any (fun p => b.any (fun q => pairConflict p q))

/-- An invocation submitted to the scheduler: an identifier (its arrival
order) and its effective lock set. -/
structure Invocation where
  id : Nat
  locks : List (Resource × Mode)
deriving DecidableEq, Repr

/-- Modelled from the spec: an invocation conflicts with the outstanding
grants iff its lock set conflicts with some active lock set. -/
def conflictsAny (inv : Invocation) (active : List Invocation) : Bool :=
  active.any (fun g => setsConflict inv.locks g.locks)

/-- Scheduler state: the queue of pending invocations in arrival order,
the currently admitted (active) grants, and logs of submission ids in
arrival order and admitted ids in admission order. -/
structure SchedState where
  pending : List Invocation
  active : List Invocation
  submitted : List Nat
  admitted : List Nat
deriving DecidableEq, Repr

/-- Modelled from the spec: on release the scheduler re-scans the queue
head-to-tail and admits every request that is now conflict-free, each
admission being visible to the checks of the later queue entries. -/
def rescan : List Invocation → List Invocation → List Nat →
    List Invocation × List Invocation × List Nat
  | [], act, adm => ([], act, adm)
  | p :: ps, act, adm =>
    if conflictsAny p act then
      let r := rescan ps act adm
      (p :: r.1, r.2.1, r.2.2)
    else
      rescan ps (act ++ [p]) (adm ++ [p.id])

/-- The scheduler state after a grant is released: the grant is removed
and the pending queue is re-scanned. -/
def releaseStep (s : SchedState) (inv : Invocation) : SchedState :=
  let act := s.active.erase inv
  let r := rescan s.pending act s.admitted
  { pending := r.1, active := r.2.1, submitted := s.submitted, admitted := r.2.2 }

/-- Modelled from the spec: one scheduler transition. A submission is
admitted immediately when conflict-free with all outstanding grants and
queued otherwise; a release removes the grant and re-scans the queue.
The predicate P restricts which invocations the environment submits. -/
inductive SchedStep (P : Invocation → Prop) : SchedState → SchedState → Prop
  | submitAdmit (s : SchedState) (inv : Invocation) :
      P inv →
      conflictsAny inv s.active = false →
      SchedStep P s
        { pending := s.pending, active := s.active ++ [inv],
          submitted := s.submitted ++ [inv.id], admitted := s.admitted ++ [inv.id] }
  | submitQueue (s : SchedState) (inv : Invocation) :
      P inv →
      conflictsAny inv s.active = true →
      SchedStep P s
        { pending := s.pending ++ [inv], active := s.active,
          submitted := s.submitted ++ [inv.id], admitted := s.admitted }
  | release (s : SchedState) (inv : Invocation) :
      inv ∈ s.active →
      SchedStep P s (releaseStep s inv)

/-- The scheduler starts empty. -/
def initState : SchedState :=
  { pending := [], active := [], submitted := [], admitted := [] }

/-- States reachable from the empty scheduler by steps whose submissions
all satisfy P. -/
inductive ReachableP (P : Invocation → Prop) : SchedState → Prop
  | init : ReachableP P initState
  | step {s t : SchedState} : ReachableP P s → SchedStep P s t → ReachableP P t

/-- Absence of conflict between two grants. -/
def NoConflict (g h : Invocation) : Prop :=
  setsConflict g.locks h.locks = false

theorem pairConflict_comm (p q : Resource × Mode) :
    pairConflict p q = pairConflict q p := by
  unfold pairConflict
  rw [Bool.or_comm]
  congr 1
  exact decide_eq_decide.mpr ⟨Eq.symm, Eq.symm⟩

theorem setsConflict_comm (a b : List (Resource × Mode)) :
    setsConflict a b = setsConflict b a := by
  rw [Bool.eq_iff_iff]
  simp only [setsConflict, List.any_eq_true]
  constructor
  · rintro ⟨p, hp, q, hq, h⟩
    exact ⟨q, hq, p, hp, by rwa [pairConflict_comm]⟩
  · rintro ⟨p, hp, q, hq, h⟩
    exact ⟨q, hq, p, hp, by rwa [pairConflict_comm]⟩

theorem noConflict_symm : Symmetric NoConflict := by
  intro g h hgh
  unfold NoConflict at *
  rw [setsConflict_comm]
  exact hgh

theorem conflictsAny_eq_false_iff (inv : Invocation) (act : List Invocation) :
    conflictsAny inv act = false ↔ ∀ g ∈ act, setsConflict inv.locks g.locks = false := by
  simp [conflictsAny, List.any_eq_false]

/-- The re-scan preserves pairwise absence of conflict among active grants. -/
theorem rescan_pairwise (ps : List Invocation) :
    ∀ (act : List Invocation) (adm : List Nat),
      act.Pairwise NoConflict → (rescan ps act adm).2.1.Pairwise NoConflict := by
  induction ps with
  | nil => intro act adm h; simpa [rescan] using h
  | cons p ps ih =>
    intro act adm h
    by_cases hc : conflictsAny p act = true
    · simpa [rescan, hc] using ih act adm h
    · rw [Bool.not_eq_true] at hc
      have hadd : (act ++ [p]).Pairwise NoConflict := by
        rw [List.pairwise_append]
        refine ⟨h, by simp, ?_⟩
        intro a ha b hb
        rw [List.mem_singleton] at hb
        rw [hb]
        exact noConflict_symm ((conflictsAny_eq_false_iff p act).mp hc a ha)
      simpa [rescan, hc] using ih (act ++ [p]) (adm ++ [p.id]) hadd

/-- Invariant: in every reachable scheduler state the active grants are
pairwise conflict-free. -/
theorem reachable_active_pairwise {P : Invocation → Prop} {s : SchedState}
    (h : ReachableP P s) : s.active.Pairwise NoConflict := by
  induction h with
  | init => simp [initState]
  | @step s t hr hs ih =>
    cases hs with
    | submitAdmit inv hP hc =>
      rw [List.pairwise_append]
      refine ⟨ih, by simp, ?_⟩
      intro a ha b hb
      rw [List.mem_singleton] at hb
      rw [hb]
      exact noConflict_symm ((conflictsAny_eq_false_iff inv s.active).mp hc a ha)
    | submitQueue inv hP hc => exact ih
    | release inv hmem =>
      exact rescan_pairwise s.pending (s.active.erase inv) s.admitted
        (ih.sublist (s.active.erase_sublist inv))

/-- Two lock sets that both name resource R, at least one in Write mode,
conflict. -/
theorem setsConflict_of_write_mem {R : Resource} {m : Mode}
    {a b : List (Resource × Mode)}
    (ha : (R, Mode.write) ∈ a) (hb : (R, m) ∈ b) : setsConflict a b = true := by
  simp only [setsConflict, List.any_eq_true]
  refine ⟨(R, Mode.write), ha, (R, m), hb, ?_⟩
  simp [pairConflict]

/-- When every queued invocation writes R and some active grant writes R,
a re-scan admits nothing and changes nothing. -/
theorem rescan_stuck {R : Resource} (ps : List Invocation)
    (act : List Invocation) (adm : List Nat)
    (hps : ∀ q ∈ ps, (R, Mode.write) ∈ q.locks)
    (g : Invocation) (hg : g ∈ act) (hgw : (R, Mode.write) ∈ g.locks) :
    rescan ps act adm = (ps, act, adm) := by
  induction ps with
  | nil => simp [rescan]
  | cons p ps ih =>
    have hconf : conflictsAny p act = true := by
      simp only [conflictsAny, List.any_eq_true]
      exact ⟨g, hg, setsConflict_of_write_mem (hps p (by simp)) hgw⟩
    have hih := ih (fun q hq => hps q (by simp [hq]))
    simp [rescan, hconf, hih]

/-- A list of length at most one containing a is the singleton of a. -/
theorem eq_singleton_of_length_le_one {α : Type} {l : List α} {a : α}
    (hlen : l.length ≤ 1) (ha : a ∈ l) : l = [a] := by
  cases l with
  | nil => cases ha
  | cons x xs =>
    cases xs with
    | nil =>
      rw [List.mem_singleton] at ha
      rw [ha]
    | cons y ys => simp at hlen

/-- Invariant of the scheduler when every submission holds a Write lock on
resource R: at most one grant is ever outstanding, the admission log
followed by the queue reproduces the arrival log, the queue is only
non-empty while a grant is outstanding, and everything in flight writes R. -/
def WritersInv (R : Resource) (s : SchedState) : Prop :=
  s.active.length ≤ 1 ∧
  s.admitted ++ s.pending.map Invocation.id = s.submitted ∧
  (s.pending = [] ∨ s.active ≠ []) ∧
  (∀ g ∈ s.active, (R, Mode.write) ∈ g.locks) ∧
  (∀ g ∈ s.pending, (R, Mode.write) ∈ g.locks)

theorem writers_invariant {R : Resource} {s : SchedState}
    (h : ReachableP (fun inv => (R, Mode.write) ∈ inv.locks) s) :
    WritersInv R s := by
  induction h with
  | init => refine ⟨by simp [initState], by simp [initState], ?_, ?_, ?_⟩ <;> simp [initState]
  | @step s t hr hs ih =>
    obtain ⟨hlen, hord, hpa, hact, hpend⟩ := ih
    cases hs with
    | submitAdmit inv hP hc =>
      have hae : s.active = [] := by
        cases hsa : s.active with
        | nil => rfl
        | cons g gs =>
          have hg : g ∈ s.active := by rw [hsa]; simp
          have hfalse := (conflictsAny_eq_false_iff inv s.active).mp hc g hg
          have htrue := setsConflict_of_write_mem (R := R) hP (hact g hg)
          rw [htrue] at hfalse
          cases hfalse
      have hpe : s.pending = [] := by
        cases hpa with
        | inl h => exact h
        | inr h => exact absurd hae h
      refine ⟨?_, ?_, ?_, ?_, ?_⟩
      · simp [hae]
      · simp only [hpe, List.map_nil, List.append_nil]
        rw [hpe, List.map_nil, List.append_nil] at hord
        rw [hord]
      · exact Or.inl hpe
      · intro g hg
        rw [hae, List.nil_append, List.mem_singleton] at hg
        rw [hg]
        exact hP
      · intro g hg
        rw [hpe] at hg
        cases hg
    | submitQueue inv hP hc =>
      refine ⟨hlen, ?_, ?_, hact, ?_⟩
      · simp only [List.map_append, List.map_cons, List.map_nil]
        rw [← List.append_assoc, hord]
      · refine Or.inr ?_
        intro hae
        rw [hae] at hc
        simp [conflictsAny] at hc
      · intro g hg
        rw [List.mem_append, List.mem_singleton] at hg
        cases hg with
        | inl h => exact hpend g h
        | inr h => rw [h]; exact hP
    | release inv hmem =>
      have hsing : s.active = [inv] := eq_singleton_of_length_le_one hlen hmem
      have herase : s.active.erase inv = [] := by
        rw [hsing, List.erase_cons_head]
      cases hps : s.pending with
      | nil =>
        have hrel : releaseStep s inv =
            { pending := [], active := [], submitted := s.submitted,
              admitted := s.admitted } := by
          simp [releaseStep, herase, hps, rescan]
        rw [hrel]
        refine ⟨by simp, ?_, Or.inl rfl, by simp, by simp⟩
        rw [hps, List.map_nil, List.append_nil] at hord
        simpa using hord
      | cons p ps =>
        have hpw : (R, Mode.write) ∈ p.locks := hpend p (by rw [hps]; simp)
        have hstuck : rescan ps [p] (s.admitted ++ [p.id]) =
            (ps, [p], s.admitted ++ [p.id]) :=
          rescan_stuck ps [p] (s.admitted ++ [p.id])
            (fun q hq => hpend q (by rw [hps]; simp [hq]))
            p (by simp) hpw
        have hnc : conflictsAny p ([] : List Invocation) = false := rfl
        have hrel : releaseStep s inv =
            { pending := ps, active := [p], submitted := s.submitted,
              admitted := s.admitted ++ [p.id] } := by
          simp [releaseStep, herase, hps, rescan, hnc, hstuck]
        rw [hrel]
        refine ⟨by simp, ?_, Or.inr (by simp), ?_, ?_⟩
        · rw [hps, List.map_cons] at hord
          rw [List.append_assoc]
          simpa using hord
        · intro g hg
          rw [List.mem_singleton] at hg
          rw [hg]
          exact hpw
        · intro g hg
          exact hpend g (by rw [hps]; simp [hg])

/-- Claim C1: for every pair of simultaneously admitted lock grants that
name a common resource, at most one of them holds that resource in Write
mode; two resource/mode pairs conflict exactly when they name the same
resource and at least one mode is Write, and the scheduler never admits
two conflicting grants concurrently. -/
theorem admitted_grants_mutual_exclusion :
    (∀ p q : Resource × Mode,
        pairConflict p q = true ↔ p.1 = q.1 ∧ (p.2 = Mode.write ∨ q.2 = Mode.write)) ∧
    (∀ (P : Invocation → Prop) (s : SchedState), ReachableP P s →
      ∀ g1 ∈ s.active, ∀ g2 ∈ s.active, g1 ≠ g2 →
        setsConflict g1.locks g2.locks = false ∧
        ∀ r : Resource, ¬((r, Mode.write) ∈ g1.locks ∧ (r, Mode.write) ∈ g2.locks)) := by
  constructor
  · intro p q
    simp [pairConflict]
  · intro P s hr g1 h1 g2 h2 hne
    have hpw := reachable_active_pairwise hr
    have hnc : NoConflict g1 g2 := hpw.forall noConflict_symm h1 h2 hne
    refine ⟨hnc, ?_⟩
    rintro r ⟨hw1, hw2⟩
    have htrue := setsConflict_of_write_mem (R := r) hw1 hw2
    rw [hnc] at htrue
    cases htrue

/-- Concrete instantiation: two Read grants on jsDoc admitted together are
conflict-free. -/
theorem admitted_grants_mutual_exclusion_witness :
    setsConflict [(Resource.jsDoc, Mode.read)] [(Resource.jsDoc, Mode.read)] = false := by
  have h1 : ReachableP (fun _ => True)
      { pending := [], active := [⟨0, [(Resource.jsDoc, Mode.read)]⟩],
        submitted := [0], admitted := [0] } :=
    ReachableP.step ReachableP.init
      (SchedStep.submitAdmit initState ⟨0, [(Resource.jsDoc, Mode.read)]⟩ trivial rfl)
  have h2 : ReachableP (fun _ => True)
      { pending := [],
        active := [⟨0, [(Resource.jsDoc, Mode.read)]⟩, ⟨1, [(Resource.jsDoc, Mode.read)]⟩],
        submitted := [0, 1], admitted := [0, 1] } :=
    ReachableP.step h1
      (SchedStep.submitAdmit _ ⟨1, [(Resource.jsDoc, Mode.read)]⟩ trivial (by decide))
  exact (admitted_grants_mutual_exclusion.2 (fun _ => True) _ h2
    ⟨0, [(Resource.jsDoc, Mode.read)]⟩ (by simp)
    ⟨1, [(Resource.jsDoc, Mode.read)]⟩ (by simp) (by decide)).1

/-- Claim C7: when every submitted action declares a Write on resource R,
at most one is ever in flight and the admission order is the arrival
order (the admission log followed by the queue, in order, is the arrival
log); moreover a Read grant on R is never concurrent with a Write grant
on R. -/
theorem single_resource_writer_serialization :
    (∀ (R : Resource) (s : SchedState),
        ReachableP (fun inv => (R, Mode.write) ∈ inv.locks) s →
        s.active.length ≤ 1 ∧
        s.admitted ++ s.pending.map Invocation.id = s.submitted) ∧
    (∀ (P : Invocation → Prop) (R : Resource) (s : SchedState), ReachableP P s →
      ∀ g1 ∈ s.active, ∀ g2 ∈ s.active, g1 ≠ g2 →
        ¬((R, Mode.write) ∈ g1.locks ∧ (R, Mode.read) ∈ g2.locks)) := by
  constructor
  · intro R s hr
    have h := writers_invariant hr
    exact ⟨h.1, h.2.1⟩
  · intro P R s hr g1 h1 g2 h2 hne
    have hpw := reachable_active_pairwise hr
    have hnc : NoConflict g1 g2 := hpw.forall noConflict_symm h1 h2 hne
    rintro ⟨hw, hrd⟩
    have htrue := setsConflict_of_write_mem (R := R) hw hrd
    rw [hnc] at htrue
    cases htrue

/-- Concrete instantiation: two Write submissions on psDoc, the second
queued behind the first; one active grant, admissions in arrival order. -/
theorem single_resource_writer_serialization_witness :
    ([(⟨0, [(Resource.psDoc, Mode.write)]⟩ : Invocation)] : List Invocation).length ≤ 1 ∧
    ([0] : List Nat) ++
      ([(⟨1, [(Resource.psDoc, Mode.write)]⟩ : Invocation)] : List Invocation).map
        Invocation.id = [0, 1] := by
  have h1 : ReachableP (fun inv => (Resource.psDoc, Mode.write) ∈ inv.locks)
      { pending := [], active := [⟨0, [(Resource.psDoc, Mode.write)]⟩],
        submitted := [0], admitted := [0] } :=
    ReachableP.step ReachableP.init
      (SchedStep.submitAdmit initState ⟨0, [(Resource.psDoc, Mode.write)]⟩ (by simp) rfl)
  have h2 : ReachableP (fun inv => (Resource.psDoc, Mode.write) ∈ inv.locks)
      { pending := [⟨1, [(Resource.psDoc, Mode.write)]⟩],
        active := [⟨0, [(Resource.psDoc, Mode.write)]⟩],
        submitted := [0, 1], admitted := [0] } :=
    ReachableP.step h1
      (SchedStep.submitQueue _ ⟨1, [(Resource.psDoc, Mode.write)]⟩ (by simp) (by decide))
  exact single_resource_writer_serialization.1 Resource.psDoc _ h2

/-- Action references appearing in the source modules: the actions defined
in the panel and shape modules, plus the cross-module actions named by
string in transfer and post lists. -/
inductive ActionRef
  | enableTooltips
  | disableTooltips
  | togglePinnedToolbar
  | toggleSingleColumnMode
  | setOverlayCloaking
  | cloak
  | commitPanelSizes
  | updatePanelSizes
  | setOverlayOffsetsForFirstDocument
  | setReferencePoint
  | setColorStop
  | beforeStartup
  | onReset
  | setStroke
  | setStrokeColor
  | setStrokeEnabled
  | setStrokeAlignment
  | setStrokeOpacity
  | setStrokeWidth
  | setFillEnabled
  | setFillColor
  | setFillOpacity
  | combineUnion
  | combineSubtract
  | combineIntersect
  | combineDifference
  | preferencesSetPreference
  | uiUpdateTransform
  | layersResetBounds
  | layersResetLayers
  | layersResetLayersByIndex
  | verifyLayersVerifySelectedBounds
deriving DecidableEq, Repr

/-- Static action descriptor, as attached to each action function in the
source (fields reads, writes, transfers, modal, post, hideOverlays). -/
structure ActionDesc where
  reads : List Resource
  writes : List Resource
  transfers : List ActionRef
  modal : Bool
  post : List ActionRef
  hideOverlays : Bool
deriving DecidableEq, Repr

/-- The descriptor table of the two source modules, transcribed from the
.action objects in the source. Cross-module actions (preferences, ui,
layers, verify) are declared elsewhere and have no descriptor here. -/
def panelRegistry : ActionRef → Option ActionDesc
  | ActionRef.enableTooltips =>
    some ⟨[], [Resource.psApp], [], true, [], false⟩
  | ActionRef.disableTooltips =>
    some ⟨[], [Resource.psApp], [], true, [], false⟩
  | ActionRef.togglePinnedToolbar =>
    some ⟨[], [Resource.jsPref], [ActionRef.preferencesSetPreference], true, [], false⟩
  | ActionRef.toggleSingleColumnMode =>
    some ⟨[], [Resource.jsPref], [ActionRef.preferencesSetPreference], true, [], false⟩
  | ActionRef.setOverlayCloaking =>
    some ⟨[Resource.jsPanel], [Resource.psApp], [], true, [], false⟩
  | ActionRef.cloak =>
    some ⟨[Resource.jsPanel], [Resource.psApp], [], true, [], true⟩
  | ActionRef.commitPanelSizes =>
    some ⟨[Resource.jsPanel], [Resource.psApp],
      [ActionRef.setOverlayCloaking, ActionRef.uiUpdateTransform], true, [], false⟩
  | ActionRef.updatePanelSizes =>
    some ⟨[], [Resource.jsPanel], [], true, [], false⟩
  | ActionRef.setOverlayOffsetsForFirstDocument =>
    some ⟨[Resource.jsPref, Resource.jsApp, Resource.jsPanel], [Resource.psApp],
      [], true, [], true⟩
  | ActionRef.setReferencePoint =>
    some ⟨[], [Resource.jsPanel], [ActionRef.preferencesSetPreference], true, [], false⟩
  | ActionRef.setColorStop =>
    some ⟨[], [Resource.psApp, Resource.jsPanel], [], true, [], false⟩
  | ActionRef.beforeStartup =>
    some ⟨[], [Resource.jsPanel], [ActionRef.setReferencePoint], true, [], false⟩
  | ActionRef.onReset =>
    some ⟨[], [], [], true, [], false⟩
  | ActionRef.setStroke =>
    some ⟨[], [Resource.psDoc, Resource.jsDoc], [ActionRef.layersResetBounds], false,
      [ActionRef.verifyLayersVerifySelectedBounds], false⟩
  | ActionRef.setStrokeColor =>
    some ⟨[], [Resource.psDoc, Resource.jsDoc], [ActionRef.layersResetBounds], false,
      [], false⟩
  | ActionRef.setStrokeEnabled =>
    some ⟨[], [], [ActionRef.setStrokeColor], false,
      [ActionRef.verifyLayersVerifySelectedBounds], false⟩
  | ActionRef.setStrokeAlignment =>
    some ⟨[], [Resource.psDoc, Resource.jsDoc], [ActionRef.layersResetBounds], false,
      [ActionRef.verifyLayersVerifySelectedBounds], false⟩
  | ActionRef.setStrokeOpacity =>
    some ⟨[Resource.psDoc, Resource.jsDoc], [Resource.psDoc, Resource.jsDoc], [], false,
      [], false⟩
  | ActionRef.setStrokeWidth =>
    some ⟨[], [Resource.psDoc, Resource.jsDoc], [ActionRef.layersResetBounds], false,
      [ActionRef.verifyLayersVerifySelectedBounds], false⟩
  | ActionRef.setFillEnabled =>
    some ⟨[Resource.psDoc, Resource.jsDoc], [Resource.psDoc, Resource.jsDoc], [], false,
      [], false⟩
  | ActionRef.setFillColor =>
    some ⟨[Resource.psDoc, Resource.jsDoc], [Resource.psDoc, Resource.jsDoc], [], true,
      [], false⟩
  | ActionRef.setFillOpacity =>
    some ⟨[Resource.psDoc, Resource.jsDoc], [Resource.psDoc, Resource.jsDoc], [], false,
      [], false⟩
  | ActionRef.combineUnion =>
    some ⟨[], [Resource.psDoc, Resource.jsDoc],
      [ActionRef.layersResetLayers, ActionRef.layersResetLayersByIndex], false,
      [ActionRef.verifyLayersVerifySelectedBounds], false⟩
  | ActionRef.combineSubtract =>
    some ⟨[], [Resource.psDoc, Resource.jsDoc],
      [ActionRef.layersResetLayers, ActionRef.layersResetLayersByIndex], false,
      [ActionRef.verifyLayersVerifySelectedBounds], false⟩
  | ActionRef.combineIntersect =>
    some ⟨[], [Resource.psDoc, Resource.jsDoc],
      [ActionRef.layersResetLayers, ActionRef.layersResetLayersByIndex], false,
      [ActionRef.verifyLayersVerifySelectedBounds], false⟩
  | ActionRef.combineDifference =>
    some ⟨[], [Resource.psDoc, Resource.jsDoc],
      [ActionRef.layersResetLayers, ActionRef.layersResetLayersByIndex], false,
      [ActionRef.verifyLayersVerifySelectedBounds], false⟩
  | _ => none

/-- Effective lock set of an action (spec definition): its own reads and
writes united with the effective lock sets of everything reachable through
its declared transfers, computed to a given depth. -/
def effectiveLocks (table : ActionRef → Option ActionDesc) : Nat → ActionRef → List Resource
  | 0, _ => []
  | n + 1, a =>
    match table a with
    | none => []
    | some d =>
      d.reads ++ d.writes ++ (d.transfers.map (fun b => effectiveLocks table n b)).flatten

/-- Every action reference, for iterating the registry. -/
def allActionRefs : List ActionRef :=
  [ActionRef.enableTooltips, ActionRef.disableTooltips, ActionRef.togglePinnedToolbar,
   ActionRef.toggleSingleColumnMode, ActionRef.setOverlayCloaking, ActionRef.cloak,
   ActionRef.commitPanelSizes, ActionRef.updatePanelSizes,
   ActionRef.setOverlayOffsetsForFirstDocument, ActionRef.setReferencePoint,
   ActionRef.setColorStop, ActionRef.beforeStartup, ActionRef.onReset,
   ActionRef.setStroke, ActionRef.setStrokeColor, ActionRef.setStrokeEnabled,
   ActionRef.setStrokeAlignment, ActionRef.setStrokeOpacity, ActionRef.setStrokeWidth,
   ActionRef.setFillEnabled, ActionRef.setFillColor, ActionRef.setFillOpacity,
   ActionRef.combineUnion, ActionRef.combineSubtract, ActionRef.combineIntersect,
   ActionRef.combineDifference, ActionRef.preferencesSetPreference,
   ActionRef.uiUpdateTransform, ActionRef.layersResetBounds, ActionRef.layersResetLayers,
   ActionRef.layersResetLayersByIndex, ActionRef.verifyLayersVerifySelectedBounds]

/-- Modelled from the spec: the registration step checks, for every
registered action and every resolvable action in its transfers list, that
the declared reads and writes of the transferee are contained in the
effective lock set of the transferring action; a table failing this check
is rejected before any invocation occurs. -/
def validateRegistry (table : ActionRef → Option ActionDesc) : Bool :=
  allActionRefs.all (fun a =>
    match table a with
    | none => true
    | some d =>
      d.transfers.all (fun b =>
        match table b with
        | none => true
        | some db =>
          (db.reads ++ db.writes).all (fun r => decide (r ∈ effectiveLocks table 4 a))))

/-- Declared locks of a transferee are contained in the effective lock set
of the transferring action, at any sufficient depth. -/
theorem effectiveLocks_transfer_subset (table : ActionRef → Option ActionDesc) (n : Nat)
    {a b : ActionRef} {da db : ActionDesc}
    (hada : table a = some da) (hb : b ∈ da.transfers) (hdb : table b = some db) :
    ∀ r, r ∈ db.reads ++ db.writes → r ∈ effectiveLocks table (n + 2) a := by
  intro r hr
  have hb2 : r ∈ effectiveLocks table (n + 1) b := by
    simp only [effectiveLocks, hdb]
    rw [List.append_assoc, List.mem_append]
    rw [List.mem_append] at hr
    cases hr with
    | inl h => exact Or.inl h
    | inr h => exact Or.inr (by rw [List.mem_append]; exact Or.inl h)
  simp only [effectiveLocks, hada]
  rw [List.append_assoc, List.mem_append, List.mem_append]
  refine Or.inr (Or.inr ?_)
  rw [List.mem_flatten]
  exact ⟨effectiveLocks table (n + 1) b, List.mem_map_of_mem _ hb, hb2⟩

/-- Claim C2: for every registered action A and every action B in the
transfers list of A that resolves in the registry, the declared reads and
writes of B are contained in the effective lock set of A; the registry
transcribed from the source passes the registration-time check, and in
particular the document resources written by setStrokeColor are in the
effective lock set of setStrokeEnabled (whose own writes are empty), and
the locks of setOverlayCloaking are in the effective lock set of
commitPanelSizes. -/
theorem transfer_locks_subset :
    (∀ (a b : ActionRef) (da db : ActionDesc),
        panelRegistry a = some da → b ∈ da.transfers → panelRegistry b = some db →
        ∀ r, r ∈ db.reads ++ db.writes → r ∈ effectiveLocks panelRegistry 4 a) ∧
    validateRegistry panelRegistry = true ∧
    (∀ r, r ∈ [Resource.psDoc, Resource.jsDoc] →
      r ∈ effectiveLocks panelRegistry 4 ActionRef.setStrokeEnabled) ∧
    (∀ r, r ∈ [Resource.jsPanel, Resource.psApp] →
      r ∈ effectiveLocks panelRegistry 4 ActionRef.commitPanelSizes) := by
  refine ⟨?_, by decide, by decide, by decide⟩
  intro a b da db hada hb hdb r hr
  exact effectiveLocks_transfer_subset panelRegistry 2 hada hb hdb r hr

/-- Concrete instantiation: the psDoc Write of setStrokeColor is in the
effective lock set of setStrokeEnabled. -/
theorem transfer_locks_subset_witness :
    Resource.psDoc ∈ effectiveLocks panelRegistry 4 ActionRef.setStrokeEnabled :=
  transfer_locks_subset.1 ActionRef.setStrokeEnabled ActionRef.setStrokeColor
    ⟨[], [], [ActionRef.setStrokeColor], false,
      [ActionRef.verifyLayersVerifySelectedBounds], false⟩
    ⟨[], [Resource.psDoc, Resource.jsDoc], [ActionRef.layersResetBounds], false,
      [], false⟩
    rfl (by decide) rfl Resource.psDoc (by decide)

/-- A color as held by the local model. External Color.normalizeAlpha
adjusts alpha to a representable fraction of 255; alpha is modelled
already quantized, so normalization is the identity here. -/
structure Color where
  rgb : Nat
  a : Nat
deriving DecidableEq, Repr

def Color.normalizeAlpha (c : Color) : Color := c

/-- A color as sent to the host; the alpha component may have been
deleted (ignoreAlpha). -/
structure PsColor where
  rgb : Nat
  a : Option Nat
deriving DecidableEq, Repr

def Color.toJS (c : Color) : PsColor := ⟨c.rgb, some c.a⟩

/-- toJS followed by the conditional delete of the alpha component. -/
def psColorFor (c : Color) (ignoreAlpha : Bool) : PsColor :=
  if ignoreAlpha then ⟨c.rgb, none⟩ else c.toJS

/-- toJS of an optional color followed by the conditional alpha delete. -/
def _toPsColor (c : Option Color) (ignoreAlpha : Bool) : Option PsColor :=
  c.map (fun col => psColorFor col ignoreAlpha)

/-- The stroke fragment of a layer tracked by the local model. -/
structure Stroke where
  enabled : Bool
  color : Color
  width : Nat
deriving DecidableEq, Repr

structure Layer where
  id : Nat
  stroke : Option Stroke
deriving DecidableEq, Repr

/-- The document fragment used by the embedded actions: its id and the
selected layers (document.layers.selected and the shape-only flag). -/
structure Document where
  id : Nat
  selected : List Layer
  selectedLayersContainOnlyShapeLayers : Bool
deriving DecidableEq, Repr

/-- The caller-supplied options object; absent fields are none. -/
structure Options where
  enabled : Option Bool
  coalesce : Option Bool
  ignoreAlpha : Option Bool
deriving DecidableEq, Repr

inductive LayerRef
  | current
  | byId (id : Nat)
deriving DecidableEq, Repr

/-- Native play objects built by the contentLayerLib adapter calls in the
source. -/
inductive PlayObject
  | setStrokeFillTypeSolidColor (ref : LayerRef) (color : Option PsColor)
  | setStrokeAlignment (ref : LayerRef) (alignment : String)
  | setStrokeOpacity (ref : LayerRef) (opacity : Nat)
  | setShapeStrokeWidth (ref : LayerRef) (width : Nat)
  | setStroke (ref : LayerRef) (stroke : Stroke)
deriving DecidableEq, Repr

/-- The stroke history event names dispatched by the source. -/
inductive StrokeEvent
  | strokeChanged
  | strokeEnabledChanged
  | strokeColorChanged
  | strokeAlignmentChanged
  | strokeOpacityChanged
  | strokeWidthChanged
deriving DecidableEq, Repr

/-- The strokeProperties payload literals built by each action. -/
inductive StrokeProps
  | colorChange (enabled : Bool) (color : Option Color) (ignoreAlpha : Option Bool)
  | alignmentChange (alignment : String) (enabled : Bool)
  | opacityChange (opacity : Nat) (enabled : Bool)
  | widthChange (width : Nat) (enabled : Bool)
  | fullStroke (stroke : Stroke) (opacity : Nat)
deriving DecidableEq, Repr

/-- The observable effects issued by an action body, in causal order.
settle marks the point at which the future the action returned resolves
(after which the scheduler releases its lock grant). -/
inductive ActEvent
  | strokeDispatch (eventName : StrokeEvent) (documentID : Nat) (layerIDs : List Nat)
      (props : StrokeProps) (coalesce : Option Bool)
  | play (objs : List PlayObject)
  | batchGet (layerIDs : List Nat) (properties : List String)
  | strokeAddedDispatch (documentID : Nat) (layerIDs : List Nat) (descriptors : List Stroke)
  | resetBoundsTransfer (documentID : Nat) (layerIDs : List Nat)
  | settle (ok : Bool)
deriving DecidableEq, Repr

/-- The native host as seen by one invocation: whether it rejects the
played command, and the authoritative per-layer stroke style it reports
to a batch get. -/
structure Host where
  rejects : Bool
  info : Nat → Stroke

/-- Test the given layers for the existence of a stroke. -/
def _allStrokesExist (layers : List Layer) : Bool :=
  layers.all (fun layer => layer.stroke.isSome)

/-- The entry prelude of setStrokeColor: normalize the color, default the
enabled flag, and pick the event name; enabledChanging records whether the
caller supplied an enabled flag. -/
structure StrokeColorSetup where
  color : Option Color
  enabled : Bool
  eventName : StrokeEvent
  enabledChanging : Bool
  ignoreAlpha : Option Bool
  coalesce : Option Bool
deriving DecidableEq, Repr

def strokeColorSetup (color : Option Color) (options : Options) : StrokeColorSetup :=
  let c := color.map Color.normalizeAlpha
  match options.enabled with
  | none =>
    ⟨c, true, StrokeEvent.strokeColorChanged, false, options.ignoreAlpha, options.coalesce⟩
  | some e =>
    ⟨c, e, StrokeEvent.strokeEnabledChanged, true, options.ignoreAlpha, options.coalesce⟩

/-- The batch get issued by _refreshStrokes when it is called. -/
def _refreshStrokesQuery (layers : List Layer) : ActEvent :=
  ActEvent.batchGet (layers.map Layer.id) ["AGMStrokeStyleInfo"]

/-- The corrected dispatch issued by _refreshStrokes once the batch get
response arrives; the source throws instead when the response length does
not match the layer count. -/
def _refreshStrokesResult (host : Host) (documentID : Nat) (layers : List Layer) :
    List ActEvent :=
  let layerIDs := layers.map Layer.id
  let response := layers.map (fun layer => host.info layer.id)
  if response.length = layers.length then
    [ActEvent.strokeAddedDispatch documentID layerIDs response]
  else
    []

/-- The shared else-branch of the stroke write actions: play the native
command, then call _refreshStrokes from the then-callback. The callback
does not return the _refreshStrokes promise, so the query is issued
before the action future settles but the corrected dispatch lands after
it. -/
def strokeFallback (host : Host) (document : Document) (layers : List Layer)
    (obj : PlayObject) : List ActEvent × Bool :=
  if host.rejects then
    ([ActEvent.play [obj], ActEvent.settle false], false)
  else
    ([ActEvent.play [obj], _refreshStrokesQuery layers, ActEvent.settle true] ++
      _refreshStrokesResult host document.id layers, true)

/-- The precondition-holds branch of setStrokeColor: optimistic dispatch,
then the native command (per-layer commands when no color was supplied
and enabled is set, one command otherwise), then resetBounds when the
enabled flag potentially changed, then settle. -/
def strokeColorOptimistic (host : Host) (document : Document) (layers : List Layer)
    (st : StrokeColorSetup) : List ActEvent × Bool :=
  let ids := layers.map Layer.id
  let props := StrokeProps.colorChange st.enabled st.color st.ignoreAlpha
  let dispatchEvt := ActEvent.strokeDispatch st.eventName document.id ids props st.coalesce
  let objs :=
    if st.color.isNone && st.enabled then
      layers.map (fun layer =>
        PlayObject.setStrokeFillTypeSolidColor (LayerRef.byId layer.id)
          (match layer.stroke with
           | some s => some (psColorFor s.color (st.ignoreAlpha.getD false))
           | none => none))
    else
      [PlayObject.setStrokeFillTypeSolidColor LayerRef.current
        (if st.enabled then _toPsColor st.color (st.ignoreAlpha.getD false) else none)]
  if host.rejects then
    ([dispatchEvt, ActEvent.play objs, ActEvent.settle false], false)
  else if st.enabledChanging then
    ([dispatchEvt, ActEvent.play objs, ActEvent.resetBoundsTransfer document.id ids,
      ActEvent.settle true], true)
  else
    ([dispatchEvt, ActEvent.play objs, ActEvent.settle true], true)

/-- setStrokeColor, as the branch on whether every target layer already
has a stroke. -/
def setStrokeColorRun (host : Host) (document : Document) (layers : List Layer)
    (color : Option Color) (options : Options) : List ActEvent × Bool :=
  let st := strokeColorSetup color options
  if _allStrokesExist layers then
    strokeColorOptimistic host document layers st
  else
    strokeFallback host document layers
      (PlayObject.setStrokeFillTypeSolidColor LayerRef.current
        (if st.enabled then _toPsColor st.color (st.ignoreAlpha.getD false) else none))

/-- setStrokeAlignment: optimistic dispatch, native command, resetBounds,
settle when all strokes exist; the shared fallback otherwise. -/
def setStrokeAlignmentRun (host : Host) (document : Document) (layers : List Layer)
    (alignmentType : String) (_options : Options) : List ActEvent × Bool :=
  let obj := PlayObject.setStrokeAlignment LayerRef.current alignmentType
  let ids := layers.map Layer.id
  if _allStrokesExist layers then
    if host.rejects then
      ([ActEvent.strokeDispatch StrokeEvent.strokeAlignmentChanged document.id ids
          (StrokeProps.alignmentChange alignmentType true) none,
        ActEvent.play [obj], ActEvent.settle false], false)
    else
      ([ActEvent.strokeDispatch StrokeEvent.strokeAlignmentChanged document.id ids
          (StrokeProps.alignmentChange alignmentType true) none,
        ActEvent.play [obj], ActEvent.resetBoundsTransfer document.id ids,
        ActEvent.settle true], true)
  else
    strokeFallback host document layers obj

/-- setStrokeOpacity: optimistic dispatch then native command (no
resetBounds) when all strokes exist; the shared fallback otherwise. -/
def setStrokeOpacityRun (host : Host) (document : Document) (layers : List Layer)
    (opacity : Nat) (options : Options) : List ActEvent × Bool :=
  let obj := PlayObject.setStrokeOpacity LayerRef.current opacity
  let ids := layers.map Layer.id
  if _allStrokesExist layers then
    if host.rejects then
      ([ActEvent.strokeDispatch StrokeEvent.strokeOpacityChanged document.id ids
          (StrokeProps.opacityChange opacity true) options.coalesce,
        ActEvent.play [obj], ActEvent.settle false], false)
    else
      ([ActEvent.strokeDispatch StrokeEvent.strokeOpacityChanged document.id ids
          (StrokeProps.opacityChange opacity true) options.coalesce,
        ActEvent.play [obj], ActEvent.settle true], true)
  else
    strokeFallback host document layers obj

/-- setStrokeWidth: optimistic dispatch, native command, resetBounds,
settle when all strokes exist; the shared fallback otherwise. -/
def setStrokeWidthRun (host : Host) (document : Document) (layers : List Layer)
    (width : Nat) (_options : Options) : List ActEvent × Bool :=
  let obj := PlayObject.setShapeStrokeWidth LayerRef.current width
  let ids := layers.map Layer.id
  if _allStrokesExist layers then
    if host.rejects then
      ([ActEvent.strokeDispatch StrokeEvent.strokeWidthChanged document.id ids
          (StrokeProps.widthChange width true) none,
        ActEvent.play [obj], ActEvent.settle false], false)
    else
      ([ActEvent.strokeDispatch StrokeEvent.strokeWidthChanged document.id ids
          (StrokeProps.widthChange width true) none,
        ActEvent.play [obj], ActEvent.resetBoundsTransfer document.id ids,
        ActEvent.settle true], true)
  else
    strokeFallback host document layers obj

/-- setStroke: optimistic dispatch of the full stroke object (color
normalized, opacity from the color alpha), native command, resetBounds on
success, settle; on host rejection the join rejects with no further
dispatch. -/
def setStrokeRun (host : Host) (document : Document) (layers : List Layer)
    (stroke : Stroke) (options : Options) : List ActEvent × Bool :=
  let eventName :=
    match options.enabled with
    | none => StrokeEvent.strokeChanged
    | some _ => StrokeEvent.strokeEnabledChanged
  let ids := layers.map Layer.id
  let strokeJS := { stroke with color := stroke.color.normalizeAlpha }
  let props := StrokeProps.fullStroke strokeJS strokeJS.color.a
  let dispatchEvt := ActEvent.strokeDispatch eventName document.id ids props none
  let obj := PlayObject.setStroke LayerRef.current stroke
  if host.rejects then
    ([dispatchEvt, ActEvent.play [obj], ActEvent.settle false], false)
  else
    ([dispatchEvt, ActEvent.play [obj], ActEvent.resetBoundsTransfer document.id ids,
      ActEvent.settle true], true)

/-- Local stroke dispatch events (the two event kinds that update the
local stroke model). -/
def isStrokeDispatchEvent : ActEvent → Bool
  | ActEvent.strokeDispatch _ _ _ _ _ => true
  | ActEvent.strokeAddedDispatch _ _ _ => true
  | _ => false

/-- Modelled from the spec: how the local store applies a dispatched
stroke payload to an existing stroke. A color change sets the enabled
flag and, when a color is supplied, replaces the color (keeping the prior
alpha under ignoreAlpha); with no supplied color the prior color is kept.
The other payloads update their respective fragment. -/
def applyStrokeProps (props : StrokeProps) (s : Stroke) : Stroke :=
  match props with
  | StrokeProps.colorChange enabled color ignoreAlpha =>
    { s with enabled := enabled,
             color :=
               match color with
               | some c => if ignoreAlpha.getD false then ⟨c.rgb, s.color.a⟩ else c
               | none => s.color }
  | StrokeProps.alignmentChange _ enabled => { s with enabled := enabled }
  | StrokeProps.opacityChange opacity enabled =>
    { s with enabled := enabled, color := ⟨s.color.rgb, opacity⟩ }
  | StrokeProps.widthChange width enabled => { s with enabled := enabled, width := width }
  | StrokeProps.fullStroke stroke _ => stroke

/-- Modelled from the spec: the local stroke state update performed by one
dispatched event. A strokeDispatch updates the stroke of each targeted
layer; a strokeAddedDispatch replaces the stroke of each targeted layer
with the host-reported descriptor; other effects do not touch the local
stroke state. -/
def applyLocalEvent (state : List Layer) (e : ActEvent) : List Layer :=
  match e with
  | ActEvent.strokeDispatch _ _ ids props _ =>
    state.map (fun layer =>
      if layer.id ∈ ids then
        { layer with stroke := layer.stroke.map (applyStrokeProps props) }
      else layer)
  | ActEvent.strokeAddedDispatch _ ids descs =>
    state.map (fun layer =>
      match List.lookup layer.id (ids.zip descs) with
      | some d => { layer with stroke := some d }
      | none => layer)
  | _ => state

/-- The local stroke state after a sequence of effects. -/
def localFold (state : List Layer) (evts : List ActEvent) : List Layer :=
  evts.foldl applyLocalEvent state

/-- Outcome of the layers-defaulting expression shared by the four
combine actions. -/
inductive ResolveOutcome
  | typeError
  | resolved (layers : Option (List Layer))
deriving DecidableEq, Repr

/-- The document-defaulting assignment shared by the combine actions. -/
def defaultDocument (callerDoc currentDoc : Option Document) : Option Document :=
  match callerDoc with
  | some d => some d
  | none => currentDoc

/-- The target-resolution prelude shared verbatim by combineUnion,
combineSubtract, combineIntersect and combineDifference: the document
defaults to the current document, and the layers assignment parses as
(layers or document) then document.layers.selected else null, a TypeError
when that dereferences a null document. -/
def combineResolveTargets (callerDoc currentDoc : Option Document)
    (layers : Option (List Layer)) : ResolveOutcome :=
  let document := defaultDocument callerDoc currentDoc
  if layers.isSome || document.isSome then
    match document with
    | some d => ResolveOutcome.resolved (some d.selected)
    | none => ResolveOutcome.typeError
  else
    ResolveOutcome.resolved none

/-- Lodash merge of one optional boolean field: a defined source value
overrides the destination. -/
def mergeField (dst src : Option Bool) : Option Bool :=
  match src with
  | some v => some v
  | none => dst

/-- Lodash merge of two options objects (later source overrides). -/
def mergeOptionsOverride (dst src : Options) : Options :=
  ⟨mergeField dst.enabled src.enabled, mergeField dst.coalesce src.coalesce,
   mergeField dst.ignoreAlpha src.ignoreAlpha⟩

/-- The color and options arguments setFillEnabled passes to
setFillColor: a null color, and the caller options merged with a literal
forcing coalesce and ignoreAlpha to false. -/
def setFillEnabledArgs (options : Options) : Option Color × Options :=
  (none, mergeOptionsOverride options ⟨none, some false, some false⟩)

/-- Modelled from the spec: the trailing-edge debounce contract. Calls are
(time, argument) pairs in time order; the wrapped function fires interval
after each call that is not followed by another call within interval,
with the arguments of that call. -/
def debounceFires (interval : Nat) : List (Nat × Nat) → List (Nat × Nat)
  | [] => []
  | [(t, a)] => [(t + interval, a)]
  | (t, a) :: (u, b) :: rest =>
    if u - t < interval then debounceFires interval ((u, b) :: rest)
    else (t + interval, a) :: debounceFires interval ((u, b) :: rest)

/-- Claim C3: when some target layer has no existing stroke, every stroke
write action issues no optimistic dispatch; the native command is played
first, then exactly one batched query for the authoritative stroke style
of every target layer, whose result is dispatched as the corrected
state. -/
theorem stroke_write_fallback_protocol :
    ∀ (host : Host) (document : Document) (layers : List Layer) (color : Option Color)
      (alignmentType : String) (opacity width : Nat) (options : Options),
      _allStrokesExist layers = false →
      host.rejects = false →
      setStrokeColorRun host document layers color options =
        ([ActEvent.play [PlayObject.setStrokeFillTypeSolidColor LayerRef.current
            (if (strokeColorSetup color options).enabled then
              _toPsColor (strokeColorSetup color options).color
                ((strokeColorSetup color options).ignoreAlpha.getD false)
            else none)],
          ActEvent.batchGet (layers.map Layer.id) ["AGMStrokeStyleInfo"],
          ActEvent.settle true,
          ActEvent.strokeAddedDispatch document.id (layers.map Layer.id)
            (layers.map (fun layer => host.info layer.id))], true) ∧
      setStrokeAlignmentRun host document layers alignmentType options =
        ([ActEvent.play [PlayObject.setStrokeAlignment LayerRef.current alignmentType],
          ActEvent.batchGet (layers.map Layer.id) ["AGMStrokeStyleInfo"],
          ActEvent.settle true,
          ActEvent.strokeAddedDispatch document.id (layers.map Layer.id)
            (layers.map (fun layer => host.info layer.id))], true) ∧
      setStrokeOpacityRun host document layers opacity options =
        ([ActEvent.play [PlayObject.setStrokeOpacity LayerRef.current opacity],
          ActEvent.batchGet (layers.map Layer.id) ["AGMStrokeStyleInfo"],
          ActEvent.settle true,
          ActEvent.strokeAddedDispatch document.id (layers.map Layer.id)
            (layers.map (fun layer => host.info layer.id))], true) ∧
      setStrokeWidthRun host document layers width options =
        ([ActEvent.play [PlayObject.setShapeStrokeWidth LayerRef.current width],
          ActEvent.batchGet (layers.map Layer.id) ["AGMStrokeStyleInfo"],
          ActEvent.settle true,
          ActEvent.strokeAddedDispatch document.id (layers.map Layer.id)
            (layers.map (fun layer => host.info layer.id))], true) := by
  intro host document layers color alignmentType opacity width options hall hrej
  refine ⟨?_, ?_, ?_, ?_⟩ <;>
    simp [setStrokeColorRun, setStrokeAlignmentRun, setStrokeOpacityRun,
      setStrokeWidthRun, strokeFallback, _refreshStrokesQuery, _refreshStrokesResult,
      hall, hrej, List.length_map]

/-- Concrete instantiation of the fallback protocol for setStrokeColor on
one stroke-less layer. -/
theorem stroke_write_fallback_protocol_witness :
    setStrokeColorRun ⟨false, fun _ => ⟨true, ⟨9, 255⟩, 3⟩⟩ ⟨1, [], true⟩ [⟨4, none⟩]
        (some ⟨2, 128⟩) ⟨none, none, none⟩ =
      ([ActEvent.play [PlayObject.setStrokeFillTypeSolidColor LayerRef.current
          (some ⟨2, some 128⟩)],
        ActEvent.batchGet [4] ["AGMStrokeStyleInfo"],
        ActEvent.settle true,
        ActEvent.strokeAddedDispatch 1 [4] [⟨true, ⟨9, 255⟩, 3⟩]], true) := by
  have h := stroke_write_fallback_protocol ⟨false, fun _ => ⟨true, ⟨9, 255⟩, 3⟩⟩
    ⟨1, [], true⟩ [⟨4, none⟩] (some ⟨2, 128⟩) "inside" 0 0 ⟨none, none, none⟩
    (by decide) rfl
  exact h.1

/-- Claim C4 evaluation: at the failing input (one layer without a
stroke), the returned future settles (position 2 in the trace, releasing
the Write lock) before the corrected strokeAddedDispatch (position 3):
the then-callback discards the _refreshStrokes promise. -/
theorem corrective_dispatch_after_settle :
    setStrokeColorRun ⟨false, fun _ => ⟨true, ⟨9, 255⟩, 3⟩⟩ ⟨1, [], true⟩ [⟨4, none⟩]
        (some ⟨2, 128⟩) ⟨none, none, none⟩ =
      ([ActEvent.play [PlayObject.setStrokeFillTypeSolidColor LayerRef.current
          (some ⟨2, some 128⟩)],
        ActEvent.batchGet [4] ["AGMStrokeStyleInfo"],
        ActEvent.settle true,
        ActEvent.strokeAddedDispatch 1 [4] [⟨true, ⟨9, 255⟩, 3⟩]], true) ∧
    ((setStrokeColorRun ⟨false, fun _ => ⟨true, ⟨9, 255⟩, 3⟩⟩ ⟨1, [], true⟩ [⟨4, none⟩]
        (some ⟨2, 128⟩) ⟨none, none, none⟩).1.take 3).filter isStrokeDispatchEvent = [] := by
  exact ⟨rfl, rfl⟩

/-- Claim C5 (amended): on host rejection the failure is surfaced to the
submitter (the returned future rejects) but no compensating dispatch is
issued; the only local dispatch in the trace is the optimistic one. -/
theorem host_rejection_no_compensation :
    ∀ (host : Host) (document : Document) (layers : List Layer) (stroke : Stroke)
      (color : Option Color) (options : Options),
      host.rejects = true →
      (setStrokeRun host document layers stroke options).2 = false ∧
      ((setStrokeRun host document layers stroke options).1.filter
        isStrokeDispatchEvent).length = 1 ∧
      (setStrokeColorRun host document layers color options).2 = false ∧
      ((setStrokeColorRun host document layers color options).1.filter
        isStrokeDispatchEvent).length ≤ 1 := by
  intro host document layers stroke color options hrej
  refine ⟨?_, ?_, ?_, ?_⟩ <;>
    cases hall : _allStrokesExist layers <;>
      simp [setStrokeRun, setStrokeColorRun, strokeColorOptimistic, strokeFallback,
        isStrokeDispatchEvent, hall, hrej]

/-- Claim C5 counterexample: a concrete rejected setStroke run; the
failure is surfaced, and the only local dispatch in the whole trace is
the optimistic one, so no compensating dispatch restoring the prior value
is issued. -/
theorem host_rejection_compensation_counterexample :
    (setStrokeRun ⟨true, fun _ => ⟨true, ⟨0, 255⟩, 1⟩⟩ ⟨7, [], true⟩
        [⟨3, some ⟨true, ⟨0, 255⟩, 1⟩⟩] ⟨true, ⟨5, 255⟩, 2⟩ ⟨none, none, none⟩).2 = false ∧
    (setStrokeRun ⟨true, fun _ => ⟨true, ⟨0, 255⟩, 1⟩⟩ ⟨7, [], true⟩
        [⟨3, some ⟨true, ⟨0, 255⟩, 1⟩⟩] ⟨true, ⟨5, 255⟩, 2⟩ ⟨none, none, none⟩).1.filter
      isStrokeDispatchEvent =
      [ActEvent.strokeDispatch StrokeEvent.strokeChanged 7 [3]
        (StrokeProps.fullStroke ⟨true, ⟨5, 255⟩, 2⟩ 255) none] := by
  exact ⟨rfl, rfl⟩

/-- Concrete instantiation of the amended rejection behavior. -/
theorem host_rejection_no_compensation_witness :
    (setStrokeRun ⟨true, fun _ => ⟨true, ⟨0, 255⟩, 1⟩⟩ ⟨7, [], true⟩
        [⟨3, some ⟨true, ⟨0, 255⟩, 1⟩⟩] ⟨true, ⟨5, 255⟩, 2⟩ ⟨none, none, none⟩).2 = false :=
  (host_rejection_no_compensation ⟨true, fun _ => ⟨true, ⟨0, 255⟩, 1⟩⟩ ⟨7, [], true⟩
    [⟨3, some ⟨true, ⟨0, 255⟩, 1⟩⟩] ⟨true, ⟨5, 255⟩, 2⟩ none ⟨none, none, none⟩ rfl).1

/-- Looking up a layer id in the zip of the target ids with the
host-reported values yields the host value for that id. -/
theorem lookup_zip_map_id (f : Nat → Stroke) :
    ∀ (layers : List Layer), ∀ layer ∈ layers,
      List.lookup layer.id
          ((layers.map Layer.id).zip (layers.map (fun l => f l.id))) =
        some (f layer.id) := by
  intro layers
  induction layers with
  | nil => intro layer h; cases h
  | cons x xs ih =>
    intro layer hmem
    simp only [List.map_cons, List.zip_cons_cons, List.lookup]
    cases hbeq : (layer.id == x.id) with
    | true =>
      have hid : layer.id = x.id := eq_of_beq hbeq
      rw [hid]
    | false =>
      rw [List.mem_cons] at hmem
      cases hmem with
      | inl h =>
        rw [h] at hbeq
        rw [beq_self_eq_true] at hbeq
        cases hbeq
      | inr h => exact ih layer h

/-- Claim C6: when the optimistic prediction of the precondition-holds
branch of setStrokeColor equals, for every target layer, the stroke style
the host later reports, the final local stroke state of that branch
equals the final local stroke state of the precondition-fails branch
(native command, batched re-fetch, corrected dispatch) on the same
inputs: both converge to host ground truth. -/
theorem reconciliation_branches_converge :
    ∀ (host : Host) (document : Document) (layers : List Layer)
      (color : Option Color) (options : Options),
      _allStrokesExist layers = true →
      host.rejects = false →
      (∀ layer ∈ layers,
        layer.stroke.map
          (applyStrokeProps
            (StrokeProps.colorChange (strokeColorSetup color options).enabled
              (strokeColorSetup color options).color
              (strokeColorSetup color options).ignoreAlpha)) =
          some (host.info layer.id)) →
      localFold layers
          (strokeColorOptimistic host document layers (strokeColorSetup color options)).1 =
        localFold layers
          (strokeFallback host document layers
            (PlayObject.setStrokeFillTypeSolidColor LayerRef.current
              (if (strokeColorSetup color options).enabled then
                _toPsColor (strokeColorSetup color options).color
                  ((strokeColorSetup color options).ignoreAlpha.getD false)
              else none))).1 := by
  intro host document layers color options hall hrej hpred
  have hlhs :
      localFold layers
          (strokeColorOptimistic host document layers (strokeColorSetup color options)).1 =
        layers.map (fun layer =>
          if layer.id ∈ layers.map Layer.id then
            { layer with
              stroke := layer.stroke.map
                (applyStrokeProps
                  (StrokeProps.colorChange (strokeColorSetup color options).enabled
                    (strokeColorSetup color options).color
                    (strokeColorSetup color options).ignoreAlpha)) }
          else layer) := by
    cases hch : (strokeColorSetup color options).enabledChanging <;>
      simp [strokeColorOptimistic, hrej, hch, localFold, applyLocalEvent]
  have hrhs :
      localFold layers
          (strokeFallback host document layers
            (PlayObject.setStrokeFillTypeSolidColor LayerRef.current
              (if (strokeColorSetup color options).enabled then
                _toPsColor (strokeColorSetup color options).color
                  ((strokeColorSetup color options).ignoreAlpha.getD false)
              else none))).1 =
        layers.map (fun layer =>
          match List.lookup layer.id
              ((layers.map Layer.id).zip (layers.map (fun l => host.info l.id))) with
          | some d => { layer with stroke := some d }
          | none => layer) := by
    simp [strokeFallback, hrej, _refreshStrokesQuery, _refreshStrokesResult,
      localFold, applyLocalEvent, List.length_map]
  rw [hlhs, hrhs]
  apply List.map_congr_left
  intro layer hmem
  rw [if_pos (List.mem_map_of_mem Layer.id hmem)]
  rw [lookup_zip_map_id (fun i => host.info i) layers layer hmem]
  rw [hpred layer hmem]

/-- Concrete instantiation of reconciliation convergence for one layer
whose predicted stroke equals the host report. -/
theorem reconciliation_branches_converge_witness :
    localFold [⟨1, some ⟨true, ⟨0, 255⟩, 2⟩⟩]
        (strokeColorOptimistic ⟨false, fun _ => ⟨true, ⟨7, 200⟩, 2⟩⟩ ⟨1, [], true⟩
          [⟨1, some ⟨true, ⟨0, 255⟩, 2⟩⟩]
          (strokeColorSetup (some ⟨7, 200⟩) ⟨none, none, none⟩)).1 =
      localFold [⟨1, some ⟨true, ⟨0, 255⟩, 2⟩⟩]
        (strokeFallback ⟨false, fun _ => ⟨true, ⟨7, 200⟩, 2⟩⟩ ⟨1, [], true⟩
          [⟨1, some ⟨true, ⟨0, 255⟩, 2⟩⟩]
          (PlayObject.setStrokeFillTypeSolidColor LayerRef.current
            (if (strokeColorSetup (some ⟨7, 200⟩) ⟨none, none, none⟩).enabled then
              _toPsColor (strokeColorSetup (some ⟨7, 200⟩) ⟨none, none, none⟩).color
                ((strokeColorSetup (some ⟨7, 200⟩) ⟨none, none, none⟩).ignoreAlpha.getD false)
            else none))).1 :=
  reconciliation_branches_converge ⟨false, fun _ => ⟨true, ⟨7, 200⟩, 2⟩⟩ ⟨1, [], true⟩
    [⟨1, some ⟨true, ⟨0, 255⟩, 2⟩⟩] (some ⟨7, 200⟩) ⟨none, none, none⟩
    rfl rfl (by decide)

/-- Claim C8: k calls to a debounced wrapper, each arriving less than
interval after the previous one, produce exactly one underlying
invocation, with the arguments of the last call, at interval after the
last call. -/
theorem debounce_single_burst :
    ∀ (interval : Nat) (calls : List (Nat × Nat)) (t a : Nat),
      List.Chain' (fun p q => p.1 < q.1 ∧ q.1 - p.1 < interval) calls →
      calls.getLast? = some (t, a) →
      debounceFires interval calls = [(t + interval, a)] := by
  intro interval calls
  induction calls with
  | nil => intro t a hch hl; cases hl
  | cons x xs ih =>
    intro t a hch hl
    cases xs with
    | nil =>
      obtain ⟨t0, a0⟩ := x
      simp only [List.getLast?_singleton, Option.some.injEq, Prod.mk.injEq] at hl
      obtain ⟨rfl, rfl⟩ := hl
      rfl
    | cons y ys =>
      obtain ⟨t0, a0⟩ := x
      obtain ⟨t1, a1⟩ := y
      rw [List.chain'_cons] at hch
      obtain ⟨⟨hlt, hgap⟩, hch2⟩ := hch
      have hl2 : ((t1, a1) :: ys).getLast? = some (t, a) := by
        rw [List.getLast?_cons_cons] at hl
        exact hl
      have hrec := ih t a hch2 hl2
      simp only [debounceFires]
      rw [if_pos hgap]
      exact hrec

/-- Concrete instantiation: three calls within 50 of each other fire once
with the last arguments, 50 after the last call. -/
theorem debounce_single_burst_witness :
    debounceFires 50 [(0, 10), (20, 11), (45, 12)] = [(95, 12)] :=
  debounce_single_burst 50 [(0, 10), (20, 11), (45, 12)] 45 12
    (by
      rw [List.chain'_cons, List.chain'_cons]
      exact ⟨⟨by decide, by decide⟩, ⟨by decide, by decide⟩, List.chain'_singleton _⟩)
    rfl

/-- Claim C9 counterexample: with a non-null layers argument and no
document available (neither passed nor current), the combine target
resolution is a TypeError, not document.layers.selected. -/
theorem combine_targets_counterexample :
    combineResolveTargets none none (some [⟨1, none⟩]) = ResolveOutcome.typeError ∧
    ∀ ls : Option (List Layer),
      combineResolveTargets none none (some [⟨1, none⟩]) ≠ ResolveOutcome.resolved ls := by
  refine ⟨rfl, ?_⟩
  intro ls h
  rw [show combineResolveTargets none none (some [⟨1, none⟩]) = ResolveOutcome.typeError
    from rfl] at h
  exact ResolveOutcome.noConfusion h

/-- Claim C9 (amended): whenever a document is available the combine
actions target document.layers.selected regardless of the caller layers
argument; the caller layers value never determines the targets; with no
document available, a non-null layers argument yields a TypeError and a
null one resolves to null. -/
theorem combine_targets_resolution :
    (∀ (callerDoc currentDoc : Option Document) (layers : Option (List Layer))
        (d : Document),
        defaultDocument callerDoc currentDoc = some d →
        combineResolveTargets callerDoc currentDoc layers =
          ResolveOutcome.resolved (some d.selected)) ∧
    (∀ (callerDoc currentDoc : Option Document) (l1 l2 : List Layer),
        combineResolveTargets callerDoc currentDoc (some l1) =
          combineResolveTargets callerDoc currentDoc (some l2)) ∧
    (∀ (callerDoc currentDoc : Option Document),
        defaultDocument callerDoc currentDoc = none →
        (∀ l : List Layer,
          combineResolveTargets callerDoc currentDoc (some l) =
            ResolveOutcome.typeError) ∧
        combineResolveTargets callerDoc currentDoc none =
          ResolveOutcome.resolved none) := by
  refine ⟨?_, ?_, ?_⟩
  · intro callerDoc currentDoc layers d h
    simp [combineResolveTargets, h]
  · intro callerDoc currentDoc l1 l2
    cases hd : defaultDocument callerDoc currentDoc <;>
      simp [combineResolveTargets, hd]
  · intro callerDoc currentDoc h
    constructor
    · intro l
      simp [combineResolveTargets, h]
    · simp [combineResolveTargets, h]

/-- Concrete instantiation: a caller-supplied layers list is overridden by
the selected layers of the available document. -/
theorem combine_targets_resolution_witness :
    combineResolveTargets (some ⟨2, [⟨9, none⟩], true⟩) none (some [⟨5, none⟩]) =
      ResolveOutcome.resolved (some [⟨9, none⟩]) :=
  combine_targets_resolution.1 (some ⟨2, [⟨9, none⟩], true⟩) none (some [⟨5, none⟩])
    ⟨2, [⟨9, none⟩], true⟩ rfl

/-- Claim C10: setFillEnabled always passes a null color to setFillColor
and forces coalesce and ignoreAlpha to false in the forwarded options,
preserving only the enabled flag of the caller options. -/
theorem setFillEnabled_forces_options :
    ∀ options : Options,
      (setFillEnabledArgs options).1 = none ∧
      (setFillEnabledArgs options).2.coalesce = some false ∧
      (setFillEnabledArgs options).2.ignoreAlpha = some false ∧
      (setFillEnabledArgs options).2.enabled = options.enabled := by
  intro options
  exact ⟨rfl, rfl, rfl, rfl⟩
